import Mathlib

/-!
# Verification of the ansible-playtest mock-resolution and verification engine

Shallow embedding of the scenario-driven test harness:
mock response resolution (`mock_ansible_adapter.py`), the staging-time mock
config generation and environment wiring
(`module_mock_configuration_manager.py`), the four verification strategies
(`verifiers/`), the execution-trace callback (`mock_module_tracker.py`), and
the orchestrator's final verdict (`playbook_runner.py`).

Python scalar values are modelled by `PyValue` with their `str()` image given
by `pyStr`; Python dicts are modelled as association lists looked up with
`List.lookup` (dict keys are unique, so first-binding lookup agrees with dict
lookup).
-/

/-- A Python scalar value as it appears in scenario data and module
parameters: a string, an integer, a boolean, or `None`. -/
inductive PyValue where
  | str (s : String)
  | int (n : Int)
  | bool (b : Bool)
  | none
deriving Repr, DecidableEq

/-- The image of a value under Python `str()` coercion. -/
def pyStr : PyValue → String
  | .str s => s
  | .int n => toString n
  | .bool b => if b then "True" else "False"
  | .none => "None"

/-- Python truthiness of a scalar value (`bool(v)`). -/
def pyTruthy : PyValue → Bool
  | .str s => !(s == "")
  | .int n => !(n == 0)
  | .bool b => b
  | .none => false

/-- A Python dict with string keys, as an association list. -/
abbrev PyDict := List (String × PyValue)

/-! ## Mock Resolution Engine (`MockAnsibleAdapter.get_response_data`) -/

/-- One candidate mock response: the dict's distinguished `task_parameters`
key (the parameter-match predicate, absent for plain entries) together with
the remaining payload fields. -/
structure MockEntry where
  task_parameters : Option PyDict
  payload : PyDict
deriving Repr, DecidableEq

/-- A step's mock table entry: either a single response dict
(backwards-compatible mode) or an ordered list of candidates. -/
inductive MockConfig where
  | single (entry : MockEntry)
  | list (entries : List MockEntry)
deriving Repr, DecidableEq

/-- The inner loop of `get_response_data`: all predicate keys must be present
in the module's actual parameters with `str()`-equal values. -/
def paramsMatch (tp : PyDict) (params : PyDict) : Bool :=
  tp.all fun kv =>
    match List.lookup kv.1 params with
    | some pv => pyStr pv == pyStr kv.2
    | Option.none => false

/-- An entry matches iff it carries a `task_parameters` predicate and the
predicate matches the actual parameters (entries without a predicate are
never selected by the scan). -/
def entryMatches (e : MockEntry) (params : PyDict) : Bool :=
  match e.task_parameters with
  | some tp => paramsMatch tp params
  | Option.none => false

/-- `mock_entry_copy.pop("task_parameters")`: the entry with its predicate
removed. -/
def stripPredicate (e : MockEntry) : MockEntry :=
  { e with task_parameters := Option.none }

/-- The declaration-order scan of `get_response_data`: return the first
matching entry, predicate stripped. -/
def findMatchingEntry : List MockEntry → PyDict → Option MockEntry
  | [], _ => Option.none
  | e :: rest, params =>
    if entryMatches e params then some (stripPredicate e)
    else findMatchingEntry rest params

/-- `MockAnsibleAdapter.get_response_data`: a non-list config is returned as
is; a list config is scanned in declaration order for the first parameter
match, falling back to the first entry (`dict(mock_config[0])`, predicate not
stripped); the empty list raises `IndexError`, modelled as `Option.none`. -/
def get_response_data : MockConfig → PyDict → Option MockEntry
  | .single e, _ => some e
  | .list [], _ => Option.none
  | .list (e0 :: rest), params =>
    match findMatchingEntry (e0 :: rest) params with
    | some r => some r
    | Option.none => some e0

theorem findMatchingEntry_eq_find? (es : List MockEntry) (params : PyDict) :
    findMatchingEntry es params =
      (es.find? (fun e => entryMatches e params)).map stripPredicate := by
  induction es with
  | nil => rfl
  | cons e rest ih =>
    by_cases h : entryMatches e params
    · simp [findMatchingEntry, h, List.find?_cons_of_pos]
    · simp only [Bool.not_eq_true] at h
      simp [findMatchingEntry, h, List.find?_cons_of_neg, ih]

theorem paramsMatch_iff (tp params : PyDict) :
    paramsMatch tp params = true ↔
      ∀ kv ∈ tp, ∃ pv, List.lookup kv.1 params = some pv ∧ pyStr pv = pyStr kv.2 := by
  unfold paramsMatch
  rw [List.all_eq_true]
  constructor
  · intro h kv hkv
    have := h kv hkv
    cases hl : List.lookup kv.1 params with
    | none => rw [hl] at this; simp at this
    | some pv =>
      rw [hl] at this
      exact ⟨pv, rfl, by simpa using this⟩
  · intro h kv hkv
    obtain ⟨pv, hl, he⟩ := h kv hkv
    rw [hl]
    simpa using he

theorem entryMatches_iff (e : MockEntry) (params : PyDict) :
    entryMatches e params = true ↔
      ∃ tp, e.task_parameters = some tp ∧
        ∀ kv ∈ tp, ∃ pv, List.lookup kv.1 params = some pv ∧ pyStr pv = pyStr kv.2 := by
  unfold entryMatches
  cases htp : e.task_parameters with
  | none => simp
  | some tp =>
    rw [paramsMatch_iff]
    constructor
    · intro h; exact ⟨tp, rfl, h⟩
    · rintro ⟨tp', htp', h⟩
      cases htp'
      exact h

/-- C1: Mock resolution on a list-valued mock table entry scans in
declaration order; an entry matches iff it carries a `task_parameters`
predicate whose keys are all present in the actual parameters with
`str()`-equal values; the first matching entry wins and is returned with its
predicate stripped; if nothing matches the first (default) entry is
returned; a non-list entry is returned verbatim. -/
theorem mock_resolution_first_match_wins (e0 : MockEntry) (rest : List MockEntry)
    (params : PyDict) :
    (get_response_data (MockConfig.list (e0 :: rest)) params =
      some (match (e0 :: rest).find? (fun e => entryMatches e params) with
            | some e => stripPredicate e
            | Option.none => e0))
    ∧ (∀ e : MockEntry, entryMatches e params = true ↔
        ∃ tp, e.task_parameters = some tp ∧
          ∀ kv ∈ tp, ∃ pv, List.lookup kv.1 params = some pv ∧ pyStr pv = pyStr kv.2)
    ∧ (∀ d : MockEntry, get_response_data (MockConfig.single d) params = some d) := by
  refine ⟨?_, fun e => entryMatches_iff e params, fun d => rfl⟩
  show (match findMatchingEntry (e0 :: rest) params with
        | some r => some r
        | Option.none => some e0) = _
  rw [findMatchingEntry_eq_find?]
  cases (e0 :: rest).find? (fun e => entryMatches e params) <;> rfl

/-- C7 counterexample: with a single-candidate list whose only entry carries
a non-matching predicate, the fallback returns the first entry with its
`task_parameters` predicate still present — the predicate is not stripped in
the default case. -/
theorem fallback_keeps_predicate_counterexample :
    get_response_data
        (MockConfig.list [⟨some [("k", PyValue.str "1")], [("r", PyValue.str "a")]⟩]) []
      = some ⟨some [("k", PyValue.str "1")], [("r", PyValue.str "a")]⟩
    ∧ (some [("k", PyValue.str "1")] : Option PyDict) ≠ Option.none := by
  exact ⟨rfl, by simp⟩

/-- C7 amended: whenever some entry of the list matches the actual
parameters, the returned response is that entry with the `task_parameters`
predicate stripped; only the no-match fallback can return an entry that
still carries its predicate. -/
theorem matched_entry_predicate_stripped (es : List MockEntry) (params : PyDict)
    (e : MockEntry) (h : es.find? (fun x => entryMatches x params) = some e) :
    get_response_data (MockConfig.list es) params = some (stripPredicate e)
    ∧ (stripPredicate e).task_parameters = Option.none := by
  refine ⟨?_, rfl⟩
  cases es with
  | nil => simp at h
  | cons e0 rest =>
    show (match findMatchingEntry (e0 :: rest) params with
          | some r => some r
          | Option.none => some e0) = _
    rw [findMatchingEntry_eq_find?, h]
    rfl

/-- C7 amended, witness: a concrete two-entry table where the second entry
matches; the response is that entry, predicate stripped. -/
theorem matched_entry_predicate_stripped_witness :
    ([(⟨Option.none, [("m", PyValue.str "d")]⟩ : MockEntry),
      ⟨some [("k", PyValue.int 1)], [("m", PyValue.str "hit")]⟩].find?
        (fun x => entryMatches x [("k", PyValue.str "1")])
      = some ⟨some [("k", PyValue.int 1)], [("m", PyValue.str "hit")]⟩)
    ∧ (get_response_data
        (MockConfig.list [⟨Option.none, [("m", PyValue.str "d")]⟩,
          ⟨some [("k", PyValue.int 1)], [("m", PyValue.str "hit")]⟩])
        [("k", PyValue.str "1")]
        = some (stripPredicate ⟨some [("k", PyValue.int 1)], [("m", PyValue.str "hit")]⟩)
      ∧ (stripPredicate
          (⟨some [("k", PyValue.int 1)], [("m", PyValue.str "hit")]⟩ : MockEntry)).task_parameters
          = Option.none) :=
  ⟨by decide, matched_entry_predicate_stripped _ _ _ (by decide)⟩

/-! ## Success-key handling (`MockAnsibleAdapter.run_mock_module`) -/

/-- How the mocked step terminates: `module.exit_json(**payload)` on success
or `module.fail_json(msg=error_msg, **payload)` on a simulated failure. -/
inductive StepOutcome where
  | exit_json (payload : PyDict)
  | fail_json (msg : PyValue) (payload : PyDict)
deriving Repr, DecidableEq

/-- `del response_data["success"]`: drop the `success` binding from the
response dict. -/
def removeSuccessKey (d : PyDict) : PyDict :=
  d.filter fun kv => !(kv.1 == "success")

/-- The payload handed back by either branch of the outcome. -/
def outcomePayload : StepOutcome → PyDict
  | .exit_json p => p
  | .fail_json _ p => p

/-- The `success`-key flow control of `MockAnsibleAdapter.run_mock_module`
applied to the resolved response dict: a falsy `success` value selects the
failure branch with `error_message` (default `"Mock service failure"`) as the
message; the `success` key is deleted before either branch exits. -/
def run_mock_module_step (response_data : PyDict) : StepOutcome :=
  let is_failure :=
    match List.lookup "success" response_data with
    | some v => !(pyTruthy v)
    | Option.none => false
  let data := removeSuccessKey response_data
  if is_failure then
    let error_msg := (List.lookup "error_message" data).getD (PyValue.str "Mock service failure")
    StepOutcome.fail_json error_msg data
  else
    StepOutcome.exit_json data

theorem lookup_removeSuccessKey (d : PyDict) :
    List.lookup "success" (removeSuccessKey d) = Option.none := by
  induction d with
  | nil => rfl
  | cons kv rest ih =>
    by_cases h : kv.1 = "success"
    · simpa [removeSuccessKey, h] using ih
    · have hb : (kv.1 == "success") = false := by simpa using h
      simp only [removeSuccessKey, List.filter_cons, hb, Bool.not_false, if_true]
      rw [List.lookup_cons]
      have hb' : ("success" == kv.1) = false := by
        simpa using fun hh => h hh.symm
      simp only [hb']
      exact ih

/-- C6: a resolved mock response makes the step fail iff it contains a
`success` key with a falsy value; the failure message is the (post-deletion)
`error_message` field, defaulting to `"Mock service failure"`; and in both
branches the payload handed back is the response with the `success` key
removed — in particular the `success` key is absent from it. -/
theorem success_key_semantics (d : PyDict) :
    ((∃ m p, run_mock_module_step d = StepOutcome.fail_json m p) ↔
      ∃ v, List.lookup "success" d = some v ∧ pyTruthy v = false)
    ∧ outcomePayload (run_mock_module_step d) = removeSuccessKey d
    ∧ List.lookup "success" (outcomePayload (run_mock_module_step d)) = Option.none
    ∧ (∀ m p, run_mock_module_step d = StepOutcome.fail_json m p →
        m = (List.lookup "error_message" (removeSuccessKey d)).getD
              (PyValue.str "Mock service failure")) := by
  cases hl : List.lookup "success" d with
  | none =>
    have hstep : run_mock_module_step d = StepOutcome.exit_json (removeSuccessKey d) := by
      simp [run_mock_module_step, hl]
    refine ⟨?_, ?_, ?_, ?_⟩
    · simp [hstep]
    · simp [hstep, outcomePayload]
    · simp [hstep, outcomePayload, lookup_removeSuccessKey]
    · simp [hstep]
  | some v =>
    cases hv : pyTruthy v with
    | true =>
      have hstep : run_mock_module_step d = StepOutcome.exit_json (removeSuccessKey d) := by
        simp [run_mock_module_step, hl, hv]
      refine ⟨?_, ?_, ?_, ?_⟩
      · simp only [hstep]
        constructor
        · rintro ⟨m, p, hmp⟩; exact absurd hmp (by simp)
        · rintro ⟨v', hv', hpf⟩
          cases hv'
          rw [hv] at hpf
          cases hpf
      · simp [hstep, outcomePayload]
      · simp [hstep, outcomePayload, lookup_removeSuccessKey]
      · simp [hstep]
    | false =>
      have hstep : run_mock_module_step d =
          StepOutcome.fail_json
            ((List.lookup "error_message" (removeSuccessKey d)).getD
              (PyValue.str "Mock service failure"))
            (removeSuccessKey d) := by
        simp [run_mock_module_step, hl, hv]
      refine ⟨?_, ?_, ?_, ?_⟩
      · constructor
        · intro _; exact ⟨v, rfl, hv⟩
        · intro _; exact ⟨_, _, hstep⟩
      · simp [hstep, outcomePayload]
      · simp [hstep, outcomePayload, lookup_removeSuccessKey]
      · intro m p hmp
        rw [hstep] at hmp
        injection hmp with h1 h2
        exact h1.symm

/-! ## Scenario model and orchestrator verdict
(`AnsibleTestScenario.expects_failure`,
`PlaybookRunner.run_playbook_with_scenario`) -/

/-- One declared expected error from the scenario's `verify.expected_errors`
block, with Python `.get` defaults already applied (`message`/`task` default
`""`, `expect_process_failure` defaults `False`). -/
structure ExpectedError where
  message : String
  task : String
  expect_process_failure : Bool
deriving Repr, DecidableEq

/-- The scenario's `verify` assertion block; each key is optional. -/
structure VerifyBlock where
  expected_calls : Option (List (String × Nat))
  parameter_validation : Option (List (String × List PyDict))
  call_sequence : Option (List String)
  expected_errors : Option (List ExpectedError)

/-- The loaded scenario data, restricted to the parts the orchestrator
verdict consults. -/
structure Scenario where
  verify : Option VerifyBlock

/-- `AnsibleTestScenario.expects_failure`: true iff the scenario declares an
expected error with `expect_process_failure: true`. -/
def expects_failure (s : Scenario) : Bool :=
  match s.verify with
  | some v =>
    match v.expected_errors with
    | some errs => errs.any (·.expect_process_failure)
    | Option.none => false
  | Option.none => false

/-- The verdict computation of `run_playbook_with_scenario`:
`verification_passed` is the conjunction of the created strategies'
statuses, `test_success` requires the raw run outcome to agree with the
declared expectation, and the overall result is their conjunction. -/
def run_playbook_verdict (s : Scenario) (playbook_success : Bool)
    (strategy_statuses : List Bool) : Bool :=
  let verification_passed := strategy_statuses.all fun b => b
  let expected_failure := expects_failure s
  let test_success := (expected_failure && !playbook_success) ||
    (!expected_failure && playbook_success)
  test_success && verification_passed

/-- C2: the orchestrator's returned success boolean equals
(`expected_to_fail` XOR `run_reported_success`) AND (every created
verification strategy reports pass), where `expected_to_fail` holds iff some
declared expected error sets `expect_process_failure`. -/
theorem overall_verdict_xor_and (s : Scenario) (playbook_success : Bool)
    (strategy_statuses : List Bool) :
    run_playbook_verdict s playbook_success strategy_statuses =
      (((expects_failure s).xor playbook_success) && strategy_statuses.all (fun b => b))
    ∧ (expects_failure s = true ↔
        ∃ v errs e, s.verify = some v ∧ v.expected_errors = some errs ∧
          e ∈ errs ∧ e.expect_process_failure = true) := by
  constructor
  · cases h : expects_failure s <;>
      cases playbook_success <;>
        simp [run_playbook_verdict, h, Bool.xor]
  · cases hv : s.verify with
    | none => simp [expects_failure, hv]
    | some v =>
      cases he : v.expected_errors with
      | none => simp [expects_failure, hv, he]
      | some errs =>
        simp only [expects_failure, hv, he, List.any_eq_true]
        constructor
        · rintro ⟨e, hmem, hpf⟩
          exact ⟨v, errs, e, rfl, he, hmem, hpf⟩
        · rintro ⟨v', errs', e, hv', he', hmem, hpf⟩
          cases hv'
          rw [he] at he'
          cases he'
          exact ⟨e, hmem, hpf⟩

/-! ## Call-Sequence verification (`CallSequenceVerifier.verify`) -/

/-- Index of the first occurrence of `e` in `d` (linear scan). -/
def firstIdxFrom (d : List String) (e : String) : Option Nat :=
  match d with
  | [] => Option.none
  | x :: xs => if x == e then some 0 else (firstIdxFrom xs e).map (· + 1)

/-- The inner loop of `CallSequenceVerifier.verify`: the first position
`actual_idx` in `range(last_found_idx + 1, len(actual_sequence))` with
`actual_sequence[actual_idx] == expected_module`. -/
def findIndexFrom (actual : List String) (start : Nat) (e : String) : Option Nat :=
  (firstIdxFrom (actual.drop start) e).map (start + ·)

/-- The diagnostic recorded for an unmatched expected module. -/
def mkMissingError (e : String) (lastFound : Int) : String :=
  "Missing expected module: " ++ e ++ " - should appear after position " ++ toString lastFound

/-- The outer loop of `CallSequenceVerifier.verify`: walk the expected list,
resuming the forward search just past the previously found position; an
unfound module appends a missing-module error and leaves the position
unchanged. `last_found_idx` starts at `-1`. -/
def seqScanAux (actual : List String) : List String → Int → List String
  | [], _ => []
  | e :: rest, lastFound =>
    match findIndexFrom actual (lastFound + 1).toNat e with
    | some idx => seqScanAux actual rest idx
    | Option.none => mkMissingError e lastFound :: seqScanAux actual rest lastFound

/-- `CallSequenceVerifier.verify` on a declared expected sequence: the
collected errors and the `_overall_pass` flag (`len(errors) == 0`). -/
def sequence_verify (expected actual : List String) : List String × Bool :=
  let errors := seqScanAux actual expected (-1)
  (errors, errors.isEmpty)

theorem firstIdxFrom_none_not_mem (d : List String) (e : String)
    (h : firstIdxFrom d e = Option.none) : e ∉ d := by
  induction d with
  | nil => simp
  | cons x xs ih =>
    by_cases hx : (x == e) = true
    · rw [firstIdxFrom, if_pos hx] at h
      cases h
    · rw [firstIdxFrom, if_neg hx] at h
      rw [Option.map_eq_none'] at h
      have hne : x ≠ e := by simpa using hx
      intro hmem
      rcases List.mem_cons.mp hmem with h1 | h2
      · exact hne h1.symm
      · exact ih h h2

theorem firstIdxFrom_some_sublist_iff (d : List String) (e : String) (j : Nat)
    (h : firstIdxFrom d e = some j) (rest : List String) :
    List.Sublist (e :: rest) d ↔ List.Sublist rest (d.drop (j + 1)) := by
  induction d generalizing j with
  | nil => cases h
  | cons x xs ih =>
    by_cases hx : (x == e) = true
    · rw [firstIdxFrom, if_pos hx] at h
      cases h
      have hxe : x = e := by simpa using hx
      subst hxe
      simp [List.cons_sublist_cons]
    · rw [firstIdxFrom, if_neg hx] at h
      rw [Option.map_eq_some'] at h
      obtain ⟨j', hj', rfl⟩ := h
      have hne : x ≠ e := by simpa using hx
      have step : List.Sublist (e :: rest) (x :: xs) ↔ List.Sublist (e :: rest) xs := by
        constructor
        · intro hsub
          cases hsub with
          | cons _ h' => exact h'
          | cons₂ _ h' => exact absurd rfl hne
        · intro hsub
          exact List.Sublist.cons x hsub
      rw [step, ih j' hj']
      simp [List.drop_succ_cons]

theorem seqScanAux_eq_nil_iff (actual : List String) (expected : List String) :
    ∀ lastFound : Int, seqScanAux actual expected lastFound = [] ↔
      List.Sublist expected (actual.drop (lastFound + 1).toNat) := by
  induction expected with
  | nil => intro l; simp [seqScanAux, List.nil_sublist]
  | cons e rest ih =>
    intro l
    cases hf : findIndexFrom actual (l + 1).toNat e with
    | none =>
      simp only [seqScanAux, hf]
      rw [findIndexFrom, Option.map_eq_none'] at hf
      constructor
      · intro hcontra
        exact absurd hcontra (List.cons_ne_nil _ _)
      · intro hsub
        exact absurd (hsub.subset (List.mem_cons_self e rest))
          (firstIdxFrom_none_not_mem _ _ hf)
    | some idx =>
      simp only [seqScanAux, hf]
      rw [findIndexFrom, Option.map_eq_some'] at hf
      obtain ⟨j, hj, hsum⟩ := hf
      rw [ih ((idx : Nat) : Int)]
      have harith : (((idx : Nat) : Int) + 1).toNat = idx + 1 := by omega
      rw [harith]
      have hidx : idx + 1 = (l + 1).toNat + (j + 1) := by omega
      rw [hidx, ← List.drop_drop]
      exact (firstIdxFrom_some_sublist_iff _ _ _ hj rest).symm

/-- C3: the call-sequence check passes exactly when the declared sequence is
an ordered (possibly interleaved) subsequence of the actual trace sequence:
each expected entry is searched forward from just past the previously found
position, an unfound entry records a missing-module error while scanning
continues from the same position, and the check passes iff no entry is
unmatched. Concretely, `[a,b,c]` passes against `[x,a,y,b,z,c]` and fails
against `[a,x,z,c]` with a single diagnostic naming `b`. -/
theorem call_sequence_subsequence (expected actual : List String) :
    ((sequence_verify expected actual).2 = true ↔ List.Sublist expected actual)
    ∧ (sequence_verify ["a", "b", "c"] ["x", "a", "y", "b", "z", "c"]).2 = true
    ∧ (sequence_verify ["a", "b", "c"] ["a", "x", "z", "c"]).2 = false
    ∧ (sequence_verify ["a", "b", "c"] ["a", "x", "z", "c"]).1 =
        ["Missing expected module: b - should appear after position 0"] := by
  refine ⟨?_, by rfl, by rfl, by rfl⟩
  have h := seqScanAux_eq_nil_iff actual expected (-1)
  have h0 : (((-1 : Int)) + 1).toNat = 0 := by omega
  rw [h0, List.drop_zero] at h
  simpa [sequence_verify, List.isEmpty_iff] using h

/-! ## Error-Verification (`ErrorVerifier.verify`) -/

def hasPrefixL : List Char → List Char → Bool
  | [], _ => true
  | _ :: _, [] => false
  | a :: as, b :: bs => a == b && hasPrefixL as bs

def hasSubstrL (needle : List Char) : List Char → Bool
  | [] => hasPrefixL needle []
  | c :: rest => hasPrefixL needle (c :: rest) || hasSubstrL needle rest

/-- Python `needle in hay` on strings: contiguous substring containment. -/
def pyInStr (needle hay : String) : Bool :=
  hasSubstrL needle.toList hay.toList

/-- One entry of the trace's `errors` list (fields read with `.get`
defaults). -/
structure ActualError where
  task : String
  message : String
deriving Repr, DecidableEq

/-- The slice of the playbook statistics consulted by `ErrorVerifier`: the
`errors` list and the per-host `failures` counts under `play_recap.hosts`
(`Option.none` when the `play_recap`/`hosts` keys are absent). -/
structure ErrorStats where
  errors : List ActualError
  hostFailures : Option (List Nat)
deriving Repr, DecidableEq

/-- `host_failed_count`: the per-host failure counts summed, `0` when the
recap is absent. -/
def sumHostFailures (stats : ErrorStats) : Nat :=
  match stats.hostFailures with
  | some l => l.sum
  | Option.none => 0

/-- The per-expected-error search: some trace error whose message contains
the expected message substring and, when a task is declared (non-empty),
whose task contains the expected task substring. -/
def errorFound (exp : ExpectedError) (actualErrors : List ActualError) : Bool :=
  actualErrors.any fun a =>
    pyInStr exp.message a.message && ((exp.task == "") || pyInStr exp.task a.task)

/-- One record of the verifier's `error_checks` list. -/
structure ErrorCheck where
  expected_message : String
  expected_task : String
  found : Bool
deriving Repr, DecidableEq

/-- The result of `ErrorVerifier.verify`: per-error found flags, the
process-failure agreement record (expected, actual, passed — absent when
the declared list is empty), and `_overall_pass`. -/
structure ErrorVerifyResult where
  error_checks : List ErrorCheck
  process_failure : Option (Bool × Bool × Bool)
  overall_pass : Bool
deriving Repr, DecidableEq

/-- `ErrorVerifier.verify` on a scenario with a declared
`verify.expected_errors` list. -/
def error_verify (expected : List ExpectedError) (stats : ErrorStats) : ErrorVerifyResult :=
  if expected.isEmpty then ⟨[], Option.none, true⟩
  else
    let checks : List ErrorCheck :=
      expected.map fun e => ⟨e.message, e.task, errorFound e stats.errors⟩
    let allFound := checks.all (·.found)
    let pfExpected := expected.any (·.expect_process_failure)
    let processFailed := decide (sumHostFailures stats > 0)
    let pfPassed := pfExpected == processFailed
    ⟨checks, some (pfExpected, processFailed, pfPassed), allFound && pfPassed⟩

/-- C4: with declared expected errors, the strategy passes iff every
declared error is found in the trace (message containment, plus task
containment when a task is declared) and the boolean "summed per-host
failure count > 0" agrees with the boolean "some declared error sets
`expect_process_failure`"; the per-error found flags are computed
independently of the process-failure agreement. -/
theorem error_verification_spec (e0 : ExpectedError) (rest : List ExpectedError)
    (stats : ErrorStats) :
    ((error_verify (e0 :: rest) stats).overall_pass = true ↔
      ((∀ e ∈ e0 :: rest, errorFound e stats.errors = true) ∧
        (sumHostFailures stats > 0 ↔ ∃ e ∈ e0 :: rest, e.expect_process_failure = true)))
    ∧ (error_verify (e0 :: rest) stats).error_checks =
        (e0 :: rest).map (fun e => ⟨e.message, e.task, errorFound e stats.errors⟩)
    ∧ (∀ (e : ExpectedError) (acts : List ActualError), errorFound e acts = true ↔
        ∃ a ∈ acts, pyInStr e.message a.message = true ∧
          (e.task = "" ∨ pyInStr e.task a.task = true)) := by
  have hne : (e0 :: rest).isEmpty = false := rfl
  refine ⟨?_, ?_, ?_⟩
  · have hpass : (error_verify (e0 :: rest) stats).overall_pass =
        ((((e0 :: rest).map fun e =>
            (⟨e.message, e.task, errorFound e stats.errors⟩ : ErrorCheck)).all (·.found))
          && ((e0 :: rest).any (·.expect_process_failure)
                == decide (sumHostFailures stats > 0))) := rfl
    rw [hpass, Bool.and_eq_true]
    have h1 : ((((e0 :: rest).map fun e =>
          (⟨e.message, e.task, errorFound e stats.errors⟩ : ErrorCheck)).all (·.found)) = true)
        ↔ ∀ e ∈ e0 :: rest, errorFound e stats.errors = true := by
      rw [List.all_eq_true]
      constructor
      · intro hall e he
        exact hall _ (List.mem_map_of_mem _ he)
      · intro hall x hx
        obtain ⟨e, he, rfl⟩ := List.mem_map.mp hx
        exact hall e he
    have h2 : ((((e0 :: rest).any (·.expect_process_failure))
          == decide (sumHostFailures stats > 0)) = true)
        ↔ (sumHostFailures stats > 0 ↔ ∃ e ∈ e0 :: rest, e.expect_process_failure = true) := by
      rw [beq_iff_eq, Bool.eq_iff_iff, List.any_eq_true, decide_eq_true_eq]
      exact Iff.comm
    rw [h1, h2]
  · simp [error_verify, hne]
  · intro e acts
    simp only [errorFound, List.any_eq_true, Bool.and_eq_true, Bool.or_eq_true, beq_iff_eq]

/-! ## Parameter-Validation (`ParameterValidationVerifier.verify`) -/

/-- One recorded invocation of a step in the trace's `call_details` list:
actual parameters and task label (written by `_track_module_call`). -/
structure CallInfo where
  params : PyDict
  task : String
deriving Repr, DecidableEq

/-- The status string recorded per declared invocation index. -/
inductive CallStatus where
  | passed
  | failed
  | missing
deriving Repr, DecidableEq

/-- One recorded parameter mismatch: `actual` is `Option.none` when the
declared key is absent from the actual parameters (`'actual': 'missing'`). -/
structure ParamFailure where
  param : String
  expected : PyValue
  actual : Option PyValue
deriving Repr, DecidableEq

/-- One detail record of the per-step result (`call_index`, `status`, the
echoed expected set in the missing case, and the per-parameter failures). -/
structure CallCheck where
  call_index : Nat
  status : CallStatus
  expected : Option PyDict
  failures : List ParamFailure
deriving Repr, DecidableEq

/-- One declared parameter compared against the actual parameters: an
absent key, or a `str()`-and-`strip()` mismatch, yields a recorded
failure. -/
def checkParam (actualParams : PyDict) (kv : String × PyValue) : Option ParamFailure :=
  match List.lookup kv.1 actualParams with
  | Option.none => some ⟨kv.1, kv.2, Option.none⟩
  | some av =>
    if (pyStr av).trim == (pyStr kv.2).trim then Option.none
    else some ⟨kv.1, kv.2, some av⟩

/-- All mismatching parameters of one declared invocation (not only the
first). -/
def checkCall (expectedParams : PyDict) (actualParams : PyDict) : List ParamFailure :=
  expectedParams.filterMap (checkParam actualParams)

/-- The body of the `enumerate(expected_params)` loop for one index: a
trace invocation missing at the index is recorded with status `missing`;
otherwise the status is `passed`/`failed` by the recorded failures. -/
def mkCallCheck (actualCalls : List CallInfo) (idx : Nat) (exp : PyDict) : CallCheck :=
  match actualCalls[idx]? with
  | Option.none => ⟨idx, CallStatus.missing, some exp, []⟩
  | some act =>
    let fails := checkCall exp act.params
    ⟨idx, if fails.isEmpty then CallStatus.passed else CallStatus.failed, Option.none, fails⟩

/-- The `enumerate` loop of `ParameterValidationVerifier.verify` for one
step, aligning declared parameter sets by invocation index. -/
def validateCalls (actualCalls : List CallInfo) : List PyDict → Nat → List CallCheck
  | [], _ => []
  | exp :: rest, idx =>
    mkCallCheck actualCalls idx exp :: validateCalls actualCalls rest (idx + 1)

/-- The per-step result: the detail records (indices starting at 0) and the
step's `passed` flag (false as soon as any index is missing or failed). -/
def parameter_validate (expectedCalls : List PyDict) (actualCalls : List CallInfo) :
    List CallCheck × Bool :=
  let details := validateCalls actualCalls expectedCalls 0
  (details, details.all (·.status == CallStatus.passed))

theorem validateCalls_length (actualCalls : List CallInfo) (expected : List PyDict) :
    ∀ start : Nat, (validateCalls actualCalls expected start).length = expected.length := by
  induction expected with
  | nil => intro start; rfl
  | cons exp rest ih => intro start; simp [validateCalls, ih]

theorem validateCalls_getElem? (actualCalls : List CallInfo) (expected : List PyDict) :
    ∀ start i : Nat, (validateCalls actualCalls expected start)[i]? =
      (expected[i]?).map (fun exp => mkCallCheck actualCalls (start + i) exp) := by
  induction expected with
  | nil => intro start i; simp [validateCalls]
  | cons exp rest ih =>
    intro start i
    cases i with
    | zero => simp [validateCalls]
    | succ i' =>
      simp only [validateCalls, List.getElem?_cons_succ]
      rw [ih (start + 1) i']
      have harith : start + 1 + i' = start + (i' + 1) := by omega
      rw [harith]

theorem checkParam_eq_none_iff (p : PyDict) (kv : String × PyValue) :
    checkParam p kv = Option.none ↔
      ∃ av, List.lookup kv.1 p = some av ∧ (pyStr av).trim = (pyStr kv.2).trim := by
  cases hl : List.lookup kv.1 p with
  | none => simp [checkParam, hl]
  | some av =>
    by_cases ht : ((pyStr av).trim == (pyStr kv.2).trim) = true
    · have hteq : (pyStr av).trim = (pyStr kv.2).trim := by simpa using ht
      simp [checkParam, hl, ht, hteq]
    · have htne : (pyStr av).trim ≠ (pyStr kv.2).trim := by simpa using ht
      simp [checkParam, hl, ht, htne]

/-- C5: the per-step parameter validation aligns declared parameter sets by
invocation index: an index with no trace invocation is recorded with status
`missing` (distinct from `failed`); otherwise every declared key must be
present and equal under `str()`-and-`strip()` comparison, every mismatching
parameter (not only the first) is recorded in the per-call failure list,
and the step passes iff every declared index has status `passed`. -/
theorem parameter_validation_spec (expectedCalls : List PyDict) (actualCalls : List CallInfo) :
    (parameter_validate expectedCalls actualCalls).1.length = expectedCalls.length
    ∧ (∀ (i : Nat) (exp : PyDict), expectedCalls[i]? = some exp →
        ∃ c : CallCheck, (parameter_validate expectedCalls actualCalls).1[i]? = some c ∧
          c.call_index = i ∧
          (actualCalls[i]? = Option.none → c.status = CallStatus.missing ∧ c.expected = some exp)
          ∧ (∀ act : CallInfo, actualCalls[i]? = some act →
              c.failures = exp.filterMap (checkParam act.params) ∧
              (c.status = CallStatus.passed ↔ exp.filterMap (checkParam act.params) = []) ∧
              c.status ≠ CallStatus.missing ∧
              (∀ kv ∈ exp, ∀ f : ParamFailure,
                checkParam act.params kv = some f → f ∈ c.failures)))
    ∧ (∀ (p : PyDict) (kv : String × PyValue), checkParam p kv = Option.none ↔
        ∃ av, List.lookup kv.1 p = some av ∧ (pyStr av).trim = (pyStr kv.2).trim)
    ∧ ((parameter_validate expectedCalls actualCalls).2 = true ↔
        ∀ c ∈ (parameter_validate expectedCalls actualCalls).1,
          c.status = CallStatus.passed) := by
  refine ⟨validateCalls_length actualCalls expectedCalls 0, ?_, checkParam_eq_none_iff, ?_⟩
  · intro i exp hi
    refine ⟨mkCallCheck actualCalls i exp, ?_, ?_, ?_, ?_⟩
    · show (validateCalls actualCalls expectedCalls 0)[i]? = _
      rw [validateCalls_getElem? actualCalls expectedCalls 0 i, hi]
      simp
    · unfold mkCallCheck
      cases actualCalls[i]? <;> rfl
    · intro hnone
      unfold mkCallCheck
      rw [hnone]
      exact ⟨rfl, rfl⟩
    · intro act hact
      simp only [mkCallCheck, hact]
      refine ⟨rfl, ?_, ?_, ?_⟩
      · by_cases hf : (checkCall exp act.params).isEmpty = true
        · rw [if_pos hf]
          simp only [true_iff]
          exact List.isEmpty_iff.mp hf
        · rw [if_neg hf]
          constructor
          · intro hcontra; cases hcontra
          · intro hempty
            exact (hf (by simp [checkCall, List.isEmpty_iff, hempty])).elim
      · by_cases hf : (checkCall exp act.params).isEmpty = true
        · rw [if_pos hf]; intro hcontra; cases hcontra
        · rw [if_neg hf]; intro hcontra; cases hcontra
      · intro kv hkv f hf
        show f ∈ checkCall exp act.params
        exact List.mem_filterMap.mpr ⟨kv, hkv, hf⟩
  · show ((validateCalls actualCalls expectedCalls 0).all (·.status == CallStatus.passed)) = true ↔ _
    rw [List.all_eq_true]
    constructor
    · intro hall c hc
      simpa using hall c hc
    · intro hall c hc
      simp [hall c hc]

/-! ## Mock-config staging (`ModuleMockConfigurationManager.create_mock_configs`,
`AnsibleTestScenario.get_mock_response`) -/

/-- `AnsibleTestScenario.get_mock_response`: the step's raw `service_mocks`
table entry, or the `{"success": True}` default when the step has no
entry. -/
def get_mock_response (service_mocks : List (String × MockConfig)) (module_name : String) :
    MockConfig :=
  (List.lookup module_name service_mocks).getD
    (MockConfig.single ⟨Option.none, [("success", PyValue.bool true)]⟩)

/-- One generated mock config file: its path inside the staging root and its
JSON-serialized content. -/
structure ConfigFile where
  path : String
  data : MockConfig
deriving Repr, DecidableEq

/-- `ModuleMockConfigurationManager.create_mock_configs`: for every module
name, `scenario.get_mock_response(module_name)` is serialized to
`<temp_dir>/<module>_mock_config.json`. -/
def create_mock_configs (temp_dir : String) (service_mocks : List (String × MockConfig))
    (module_names : List String) : List (String × ConfigFile) :=
  module_names.map fun n =>
    (n, ⟨temp_dir ++ "/" ++ n ++ "_mock_config.json", get_mock_response service_mocks n⟩)

/-- C8 counterexample: for `service_mocks: {stepA: {success: false,
error_message: "boom"}}` the staged config file for `stepA` contains the raw
table entry with the `success` key still present — not the
`success`-stripped resolved payload `{error_message: "boom"}` the claim
describes. -/
theorem config_file_keeps_success_counterexample :
    create_mock_configs "/tmp/stage"
        [("stepA", MockConfig.single ⟨Option.none,
          [("success", PyValue.bool false), ("error_message", PyValue.str "boom")]⟩)]
        ["stepA"]
      = [("stepA", ⟨"/tmp/stage/stepA_mock_config.json",
          MockConfig.single ⟨Option.none,
            [("success", PyValue.bool false), ("error_message", PyValue.str "boom")]⟩⟩)]
    ∧ MockConfig.single (⟨Option.none,
        [("success", PyValue.bool false), ("error_message", PyValue.str "boom")]⟩ : MockEntry)
      ≠ MockConfig.single ⟨Option.none, [("error_message", PyValue.str "boom")]⟩ := by
  exact ⟨by decide, by decide⟩

/-- C8 amended: the generated per-step config file contains exactly the
scenario's raw mock table entry for that step — no parameter resolution and
no `success`-key stripping happen at staging time (both happen later, inside
the mocked module) — or the default `{"success": True}` object for a step
with no table entry; the file lands at `<temp_dir>/<module>_mock_config.json`. -/
theorem config_file_contains_raw_table_entry (temp_dir : String)
    (service_mocks : List (String × MockConfig)) (module_names : List String)
    (n : String) (h : n ∈ module_names) :
    List.lookup n (create_mock_configs temp_dir service_mocks module_names) =
      some ⟨temp_dir ++ "/" ++ n ++ "_mock_config.json",
        get_mock_response service_mocks n⟩ := by
  induction module_names with
  | nil => cases h
  | cons m rest ih =>
    by_cases hm : (n == m) = true
    · have hnm : n = m := by simpa using hm
      subst hnm
      simp [create_mock_configs, List.lookup]
    · have h2 : n ∈ rest := by
        rcases List.mem_cons.mp h with h1 | h2
        · exact absurd (by simp [h1]) hm
        · exact h2
      simp only [create_mock_configs, List.map_cons, List.lookup, hm]
      exact ih h2

/-- C8 amended, witness: the raw `{success: false, error_message: boom}`
entry is what lands in the staged file for `stepA`. -/
theorem config_file_contains_raw_table_entry_witness :
    ("stepA" ∈ ["stepA", "stepB"])
    ∧ List.lookup "stepA"
        (create_mock_configs "/tmp/stage"
          [("stepA", MockConfig.single ⟨Option.none,
            [("success", PyValue.bool false), ("error_message", PyValue.str "boom")]⟩)]
          ["stepA", "stepB"])
      = some ⟨"/tmp/stage" ++ "/" ++ "stepA" ++ "_mock_config.json",
          get_mock_response
            [("stepA", MockConfig.single ⟨Option.none,
              [("success", PyValue.bool false), ("error_message", PyValue.str "boom")]⟩)]
            "stepA"⟩ :=
  ⟨by simp, config_file_contains_raw_table_entry _ _ _ _ (by simp)⟩

/-! ## Environment-variable naming
(`ModuleMockConfigurationManager.set_env_vars`,
`MockAnsibleAdapter.get_mock_config_path`) -/

/-- The writer's name normalization in `set_env_vars`:
`module_name.replace(".", "_").upper()` (modelled character-wise over the
string's data; ASCII upper-casing). -/
def writer_env_module_name (module_name : String) : String :=
  String.mk (module_name.data.map fun c => (if c == '.' then '_' else c).toUpper)

/-- The reader's name normalization in `get_mock_config_path`:
`module_name.replace(".", "_").upper()`. -/
def reader_env_module_name (module_name : String) : String :=
  String.mk (module_name.data.map fun c => (if c == '.' then '_' else c).toUpper)

/-- The `_CONFIG` variable name the writer stages. -/
def config_env_var (module_name : String) : String :=
  "ANSIBLE_MOCK_" ++ writer_env_module_name module_name ++ "_CONFIG"

/-- The `_ENABLED` variable name the writer stages. -/
def enabled_env_var (module_name : String) : String :=
  "ANSIBLE_MOCK_" ++ writer_env_module_name module_name ++ "_ENABLED"

/-- The `_CONFIG` variable name the reader derives. -/
def reader_config_env_var (module_name : String) : String :=
  "ANSIBLE_MOCK_" ++ reader_env_module_name module_name ++ "_CONFIG"

/-- Modelled from the spec: the naming scheme the specification describes —
every non-alphanumeric character replaced by underscore, then
upper-cased. -/
def spec_env_module_name (module_name : String) : String :=
  String.mk (module_name.data.map fun c => (if c.isAlphanum then c else '_').toUpper)

/-- The process environment mapping. -/
def EnvMap := String → Option String

/-- `env[k] = v`. -/
def envSet (e : EnvMap) (k v : String) : EnvMap :=
  fun q => if q == k then some v else e q

/-- `ModuleMockConfigurationManager.set_env_vars`: two variables per staged
module — the `_CONFIG` path and the `_ENABLED` flag. -/
def set_env_vars (module_configs : List (String × String)) (env : EnvMap) : EnvMap :=
  module_configs.foldl
    (fun e nc => envSet (envSet e (config_env_var nc.1) nc.2) (enabled_env_var nc.1) "true")
    env

/-- `MockAnsibleAdapter.get_mock_config_path`: read the `_CONFIG` variable
derived from the module name (`Option.none` when unset). -/
def get_mock_config_path (env : EnvMap) (module_name : String) : Option String :=
  env (reader_config_env_var module_name)

/-- The last value `set_env_vars` writes for key `q` (later entries win). -/
def lastWrite (configs : List (String × String)) (q : String) : Option String :=
  match configs with
  | [] => Option.none
  | nc :: rest =>
    match lastWrite rest q with
    | some v => some v
    | Option.none =>
      if q == enabled_env_var nc.1 then some "true"
      else if q == config_env_var nc.1 then some nc.2
      else Option.none

theorem set_env_vars_apply (configs : List (String × String)) :
    ∀ (env : EnvMap) (q : String),
      set_env_vars configs env q =
        match lastWrite configs q with
        | some v => some v
        | Option.none => env q := by
  induction configs with
  | nil => intro env q; rfl
  | cons nc rest ih =>
    intro env q
    show set_env_vars rest
        (envSet (envSet env (config_env_var nc.1) nc.2) (enabled_env_var nc.1) "true") q = _
    rw [ih]
    cases hlw : lastWrite rest q with
    | some v => simp [lastWrite, hlw]
    | none =>
      simp only [lastWrite, hlw]
      by_cases he : (q == enabled_env_var nc.1) = true
      · simp [envSet, he]
      · by_cases hc : (q == config_env_var nc.1) = true
        · simp [envSet, he, hc]
        · simp [envSet, he, hc]

theorem config_env_var_ne_enabled (n : String) : config_env_var n ≠ enabled_env_var n := by
  intro h
  have hd := congrArg String.data h
  simp only [config_env_var, enabled_env_var, String.data_append, List.append_assoc] at hd
  have h2 := List.append_cancel_left hd
  have h3 := List.append_cancel_left h2
  exact absurd h3 (by decide)

/-- C9 counterexample: for the identifier `my-step` the code derives
`ANSIBLE_MOCK_MY-STEP_CONFIG` — only dots are replaced by underscores — 
while the claimed every-non-alphanumeric normalization would give
`ANSIBLE_MOCK_MY_STEP_CONFIG`. -/
theorem env_naming_counterexample :
    config_env_var "my-step" = "ANSIBLE_MOCK_MY-STEP_CONFIG"
    ∧ "ANSIBLE_MOCK_" ++ spec_env_module_name "my-step" ++ "_CONFIG"
        = "ANSIBLE_MOCK_MY_STEP_CONFIG"
    ∧ config_env_var "my-step"
        ≠ "ANSIBLE_MOCK_" ++ spec_env_module_name "my-step" ++ "_CONFIG" := by
  exact ⟨by decide, by decide, by decide⟩

/-- C9 amended: both staged variables are named by replacing every dot (and
only dots) of the identifier with underscore, upper-casing, and prefixing
`ANSIBLE_MOCK_`; the reader in the mock adapter derives the name the same
way, so for every identifier the reader finds the path the writer staged
(most recent write wins, and the `_ENABLED` variable never collides with the
`_CONFIG` variable of the same module). -/
theorem env_naming_writer_reader_agree (n path : String) (env : EnvMap)
    (configs : List (String × String)) :
    writer_env_module_name n = reader_env_module_name n
    ∧ config_env_var n =
        "ANSIBLE_MOCK_" ++ String.mk (n.data.map fun c => (if c == '.' then '_' else c).toUpper)
          ++ "_CONFIG"
    ∧ get_mock_config_path (set_env_vars configs env) n =
        (match lastWrite configs (config_env_var n) with
          | some v => some v
          | Option.none => env (config_env_var n))
    ∧ get_mock_config_path (set_env_vars [(n, path)] env) n = some path := by
  refine ⟨rfl, rfl, ?_, ?_⟩
  · show set_env_vars configs env (reader_config_env_var n) = _
    rw [set_env_vars_apply]
    rfl
  · show set_env_vars [(n, path)] env (reader_config_env_var n) = some path
    rw [set_env_vars_apply]
    have hne : (config_env_var n == enabled_env_var n) = false := by
      simpa using config_env_var_ne_enabled n
    show (match lastWrite [(n, path)] (config_env_var n) with
          | some v => some v
          | Option.none => env (config_env_var n)) = some path
    simp [lastWrite, hne]

/-! ## Trace collection (`mock_module_tracker.CallbackModule`) and
call-count verification (`ModuleCallCountVerifier`) -/

/-- The task result handed to the callback hooks: the module action name
(`result._task.action`), the task args, the task label and the result
payload. -/
structure TaskResult where
  action : String
  args : PyDict
  task_name : String
  res : PyDict
deriving Repr, DecidableEq

/-- The callback's accumulated trace state (timestamps omitted — real
time). Dict-valued counters are total maps defaulting to `0` / `[]`,
matching the `if name not in dict: dict[name] = 0` idiom. -/
structure TrackerState where
  module_calls : String → Nat
  call_details : String → List CallInfo
  call_sequence : List String
  failed_modules : String → Nat
  skipped_modules : String → Nat
  errors : List ActualError

/-- `_increment_module_count`. -/
def increment_module_count (st : TrackerState) (name : String) : TrackerState :=
  { st with module_calls := fun m =>
      if m == name then st.module_calls m + 1 else st.module_calls m }

/-- `_track_module_call`: append to the call sequence and to the module's
invocation-detail list. -/
def track_module_call (st : TrackerState) (name : String) (r : TaskResult) : TrackerState :=
  { st with
    call_sequence := st.call_sequence ++ [name],
    call_details := fun m =>
      if m == name then st.call_details m ++ [⟨r.args, r.task_name⟩]
      else st.call_details m }

/-- `v2_runner_on_ok`: bump the invocation counter and record the call. -/
def v2_runner_on_ok (st : TrackerState) (r : TaskResult) : TrackerState :=
  track_module_call (increment_module_count st r.action) r.action r

/-- `v2_runner_on_skipped`: bump only the skip counter and append the
identifier with the `(skipped)` marker to the call sequence. -/
def v2_runner_on_skipped (st : TrackerState) (r : TaskResult) : TrackerState :=
  { st with
    skipped_modules := fun m =>
      if m == r.action then st.skipped_modules m + 1 else st.skipped_modules m,
    call_sequence := st.call_sequence ++ [r.action ++ "(skipped)"] }

/-- `ModuleCallCountVerifier.verify`: per-step expected/actual/passed
records and the `_overall_pass` flag. -/
def module_call_verify (expected_calls : List (String × Nat)) (module_calls : String → Nat) :
    List (String × Nat × Nat × Bool) × Bool :=
  let results := expected_calls.map fun nc =>
    (nc.1, nc.2, module_calls nc.1, nc.2 == module_calls nc.1)
  (results, results.all fun r => r.2.2.2)

theorem sequence_verify_pass_iff (expected actual : List String) :
    (sequence_verify expected actual).2 = true ↔ List.Sublist expected actual := by
  have h := seqScanAux_eq_nil_iff actual expected (-1)
  have h0 : (((-1 : Int)) + 1).toNat = 0 := by omega
  rw [h0, List.drop_zero] at h
  simpa [sequence_verify, List.isEmpty_iff] using h

theorem sublist_drop_last_of_not_mem (x : String) :
    ∀ (m l : List String), x ∉ l → List.Sublist l (m ++ [x]) → List.Sublist l m := by
  intro m
  induction m with
  | nil =>
    intro l hx h
    simp only [List.nil_append] at h
    cases h with
    | cons _ h' => exact h'
    | cons₂ _ h' => exact absurd (List.mem_cons_self _ _) hx
  | cons y ys ih =>
    intro l hx h
    rw [List.cons_append] at h
    cases h with
    | cons _ h' => exact List.Sublist.cons y (ih l hx h')
    | cons₂ _ h' =>
      exact List.Sublist.cons₂ y (ih _ (fun hm => hx (List.mem_cons_of_mem _ hm)) h')

/-- C10: a skipped step invocation increments only that step's skip counter
and appends `<identifier>(skipped)` to the call sequence, leaving the
per-step invocation counters, the invocation-detail lists, the failure
counters and the error list unchanged; consequently it changes no
call-count or parameter-validation verdict and never satisfies a
plain-identifier call-sequence entry. -/
theorem skipped_step_frame (st : TrackerState) (r : TaskResult) :
    (v2_runner_on_skipped st r).skipped_modules =
      (fun m => if m == r.action then st.skipped_modules m + 1 else st.skipped_modules m)
    ∧ (v2_runner_on_skipped st r).call_sequence =
        st.call_sequence ++ [r.action ++ "(skipped)"]
    ∧ (v2_runner_on_skipped st r).module_calls = st.module_calls
    ∧ (v2_runner_on_skipped st r).call_details = st.call_details
    ∧ (v2_runner_on_skipped st r).failed_modules = st.failed_modules
    ∧ (v2_runner_on_skipped st r).errors = st.errors
    ∧ (∀ expected_calls : List (String × Nat),
        module_call_verify expected_calls (v2_runner_on_skipped st r).module_calls
          = module_call_verify expected_calls st.module_calls)
    ∧ (∀ (step : String) (expectedParams : List PyDict),
        parameter_validate expectedParams ((v2_runner_on_skipped st r).call_details step)
          = parameter_validate expectedParams (st.call_details step))
    ∧ (∀ expected : List String, (r.action ++ "(skipped)") ∉ expected →
        (sequence_verify expected (v2_runner_on_skipped st r).call_sequence).2
          = (sequence_verify expected st.call_sequence).2) := by
  refine ⟨rfl, rfl, rfl, rfl, rfl, rfl, fun _ => rfl, fun _ _ => rfl, ?_⟩
  intro expected hx
  rw [Bool.eq_iff_iff, sequence_verify_pass_iff, sequence_verify_pass_iff]
  show List.Sublist expected (st.call_sequence ++ [r.action ++ "(skipped)"]) ↔
    List.Sublist expected st.call_sequence
  constructor
  · intro hsub
    exact sublist_drop_last_of_not_mem _ _ _ hx hsub
  · intro hsub
    exact hsub.trans (List.sublist_append_left _ _)
